import Mathlib

/-!
Verification of the automated-job-search pipeline (NFerracuti/automated-job-search).

The Python sources are shallowly embedded here.  Python strings are modelled as
`List Char` (named `PyStr`) so that every operation is a structurally recursive,
kernel-computable Lean function:

* `pyLower`    models `str.lower()` (ASCII case folding, as used by the code),
* `strIn`      models Python's substring test `needle in hay`,
* `pyStrip`    models `str.strip()`,
* `pySplit`    models `str.split(sep)` for a non-empty separator,
* `splitOnce`  models `str.split(sep, 1)` (guarded by a containment check),
* `pyTitle`    models `str.title()`,
* `removeDoubleStar` models `str.replace('**', '')`,
* `findSub`    models `str.find(sub)` (used only when the substring is present).

Option-valued fields model Python values that may be `None`; exceptions raised
by an external call are modelled by the `none` case of the corresponding
response oracle.
-/

/-- Python strings, modelled as lists of characters. -/
abbrev PyStr := List Char

/-- Model of `str.lower()` restricted to the ASCII folding performed by
`Char.toLower`; the code only compares ASCII keyword lists. -/
def pyLower (s : PyStr) : PyStr := s.map Char.toLower

/-- Model of `list.startswith`-style prefix test used to implement the
substring test: `leadsWith n h` holds when `n` is a prefix of `h`. -/
def leadsWith : PyStr → PyStr → Bool
  | [], _ => true
  | _ :: _, [] => false
  | a :: as, b :: bs => a = b && leadsWith as bs

/-- Model of Python's substring containment `needle in hay`. -/
def strIn (needle : PyStr) : PyStr → Bool
  | [] => needle.isEmpty
  | c :: rest => leadsWith needle (c :: rest) || strIn needle rest

/-- Model of `str.strip()`: drop whitespace from both ends. -/
def pyStrip (s : PyStr) : PyStr :=
  ((s.dropWhile Char.isWhitespace).reverse.dropWhile Char.isWhitespace).reverse

/-- Fuel-indexed worker for `pySplit`; the fuel starts at the string length,
which suffices for a non-empty separator. -/
def pySplitAux (sep : PyStr) : Nat → PyStr → PyStr → List PyStr
  | 0, s, acc => [acc.reverse ++ s]
  | _ + 1, [], acc => [acc.reverse]
  | fuel + 1, c :: rest, acc =>
    if leadsWith sep (c :: rest) then
      acc.reverse :: pySplitAux sep fuel ((c :: rest).drop sep.length) []
    else
      pySplitAux sep fuel rest (c :: acc)

/-- Model of Python's `str.split(sep)` for a non-empty separator `sep`. -/
def pySplit (sep s : PyStr) : List PyStr := pySplitAux sep s.length s []

/-- Model of `str.split(c, 1)` for a single-character separator, returning the
part before the first occurrence of `c` and the part after it.  The code only
calls it after checking that `c` occurs in the string. -/
def splitOnce (c : Char) : PyStr → PyStr × PyStr
  | [] => ([], [])
  | x :: rest =>
    if x = c then ([], rest)
    else
      let p := splitOnce c rest
      (x :: p.1, p.2)

/-- Model of `str.replace('**', '')`: remove every non-overlapping occurrence
of two consecutive asterisks, scanning left to right. -/
def removeDoubleStar : PyStr → PyStr
  | '*' :: '*' :: rest => removeDoubleStar rest
  | c :: rest => c :: removeDoubleStar rest
  | [] => []

/-- Worker for `pyTitle`; the flag records whether the previous character was
alphabetic (Python's notion of a cased character for the ASCII data here). -/
def pyTitleAux : Bool → PyStr → PyStr
  | _, [] => []
  | prevAlpha, c :: rest =>
    (if c.isAlpha then (if prevAlpha then c.toLower else c.toUpper) else c) ::
      pyTitleAux c.isAlpha rest

/-- Model of Python's `str.title()`. -/
def pyTitle (s : PyStr) : PyStr := pyTitleAux false s

/-- Model of `str.find(sub)`, returning the index of the first occurrence. -/
def findSub (needle : PyStr) : PyStr → Option Nat
  | [] => if needle.isEmpty then some 0 else none
  | c :: rest =>
    if leadsWith needle (c :: rest) then some 0
    else (findSub needle rest).map (· + 1)

/-- The possible Python shapes of a resume record's `skills` value observed in
the source: a string, a dict of category to skill list, a flat list, `None`,
or a missing key. -/
inductive SkillsVal where
  | vstr (s : PyStr)
  | vdict (d : List (PyStr × List PyStr))
  | vlist (l : List PyStr)
  | vnone
  | vmissing
deriving DecidableEq

/-- One rendered block of the skills section of the assembled document, per
`DocxResumeGenerator._create_basic_resume` (docx_generator.py): either a bold
category line followed by a comma-joined skill list, or a standalone bold
label with no list. -/
inductive SkillBlock where
  | category (name : PyStr) (skills : PyStr)
  | standalone (label : PyStr)
deriving DecidableEq

/-- Rendering of one `\n\n`-separated section of a skills string, per
docx_generator.py lines 286-308: strip it, skip it when empty, split it at the
first colon into a category block when it contains a colon, and otherwise
render it as a standalone bold label. -/
def renderSection (sec : PyStr) : Option SkillBlock :=
  let sec := pyStrip sec
  if sec.isEmpty then none
  else if sec.contains ':' then
    let p := splitOnce ':' sec
    some (.category (pyStrip p.1) (pyStrip p.2))
  else some (.standalone (pyStrip sec))

/-- Rendering of the skills section of `_create_basic_resume`
(docx_generator.py lines 283-329), branching on the Python shape of the
skills value exactly as the source does.  The Python dict-membership tests
`'git' in skills_data` use the exact lowercase keys, while the categorised
loop excludes categories whose lowercase form is `git` or `scrum`. -/
def renderSkillsBlocks : SkillsVal → List SkillBlock
  | .vstr s =>
    if (pyStrip s).isEmpty then []
    else (pySplit ('\n' :: '\n' :: []) s).filterMap renderSection
  | .vdict d =>
    (d.filterMap fun p =>
      if pyLower p.1 = "git".data ∨ pyLower p.1 = "scrum".data then none
      else if p.2.isEmpty then none
      else
        some (.category (pyTitle (p.1.map fun c => if c = '_' then ' ' else c))
          (List.intercalate ", ".data p.2))) ++
    (["git".data, "scrum".data].filterMap fun k =>
      match d.find? (fun p => p.1 = k) with
      | some p => if p.2.isEmpty then none else some (.standalone (pyTitle k))
      | none => none)
  | _ => []

/-- One experience entry of the base resume (resume_data.json): company,
title, ordered description bullets, and an optional technology list. -/
structure Experience where
  company : PyStr
  title : PyStr
  description : List PyStr
  technologies : List PyStr
deriving DecidableEq

/-- The loaded base resume record (`self.resume_data` in
src/resume_generator/openai_generator.py): the `skills` value is a dict of
category to skill list, as required by the `.items()` iterations in
`_generate_skills_section` and `_format_original_skills`. -/
structure ResumeData where
  summary : PyStr
  skills : List (PyStr × List PyStr)
  experience : List Experience
deriving DecidableEq

/-- The tailored resume produced by `generate_tailored_resume`: the summary is
a string, the skills value is whatever Python value `_generate_skills_section`
returned (a string, or `None` when the response lacked the expected markers),
and the experience entries carry the replaced bullets. -/
structure TailoredResume where
  summary : PyStr
  skills : SkillsVal
  experience : List Experience
deriving DecidableEq

/-- Oracle for the three kinds of language-model calls issued per job.  A
`none` response models a call that raised (network error, API error) or whose
`message.content` was `None`, so that `.strip()` raised inside the `try`
block; a `some s` response models a completion returning the text `s`. -/
structure LLMBehavior where
  summaryResp : Option PyStr
  skillsResp : Option PyStr
  bulletsResp : Experience → Option PyStr

/-- Model of `OpenAIResumeGenerator._generate_summary`
(src/resume_generator/openai_generator.py lines 66-104): on success the
response is stripped and returned verbatim; on an exception the original
summary is returned. -/
def generateSummary (base : ResumeData) (resp : Option PyStr) : PyStr :=
  match resp with
  | none => base.summary
  | some s => pyStrip s

/-- Model of `OpenAIResumeGenerator._format_original_skills`
(src/resume_generator/openai_generator.py lines 219-229): categories whose
lowercase name is `git` or `scrum` become title-cased standalone lines, every
other category becomes `Category Name:\nskill, skill`, and the pieces are
joined with blank lines. -/
def formatOriginalSkills (skills : List (PyStr × List PyStr)) : PyStr :=
  List.intercalate ('\n' :: '\n' :: []) (skills.map fun p =>
    if pyLower p.1 = "git".data ∨ pyLower p.1 = "scrum".data then pyTitle p.1
    else
      pyTitle (p.1.map fun c => if c = '_' then ' ' else c) ++ ":\n".data ++
        List.intercalate ", ".data p.2)

/-- The marker `"Programming Languages"` looked up in the skills response. -/
def plMarker : PyStr := "Programming Languages".data

/-- The marker `"Scrum"` looked up in the skills response. -/
def scrumMarker : PyStr := "Scrum".data

/-- The line-level reformatting loop of `_generate_skills_section`
(src/resume_generator/openai_generator.py lines 177-210): strip each line,
skip empty lines, delete `**` markers, and insert one blank line before every
comma-free line (category header or standalone skill) except the first kept
line.  Both the standalone-skill branch and the category branch of the source
perform the same appends, so they are modelled by one branch. -/
def formatSkillsLines (lines : List PyStr) : List PyStr :=
  lines.foldl
    (fun acc line =>
      let line := pyStrip line
      if line.isEmpty then acc
      else
        let line := removeDoubleStar line
        if line.contains ',' then acc ++ [line]
        else if acc.isEmpty then acc ++ [line]
        else acc ++ [[], line])
    []

/-- The trailing `while formatted_lines and not formatted_lines[-1]: pop()`
loop of `_generate_skills_section`. -/
def dropTrailingEmpties (l : List PyStr) : List PyStr :=
  (l.reverse.dropWhile List.isEmpty).reverse

/-- The slice-and-reformat step of `_generate_skills_section`
(src/resume_generator/openai_generator.py lines 172-212), applied when the
stripped response contains both markers: slice from the first occurrence of
`Programming Languages` to the end of the first occurrence of `Scrum`, then
reformat line by line and join with newlines. -/
def processSkillsSection (t : PyStr) : PyStr :=
  let start := (findSub plMarker t).getD 0
  let stop := (findSub scrumMarker t).getD 0 + scrumMarker.length
  let sliced := (t.drop start).take (stop - start)
  List.intercalate ('\n' :: []) (dropTrailingEmpties (formatSkillsLines (pySplit ('\n' :: []) sliced)))

/-- Model of `OpenAIResumeGenerator._generate_skills_section`
(src/resume_generator/openai_generator.py lines 106-217).  On an exception the
fallback `_format_original_skills` string is returned; on a response whose
stripped text contains both markers the reformatted slice is returned; a
response lacking either marker falls off the end of the `try` block, so the
Python function returns `None`. -/
def generateSkillsSection (base : ResumeData) (resp : Option PyStr) : SkillsVal :=
  match resp with
  | none => .vstr (formatOriginalSkills base.skills)
  | some s =>
    let skills := pyStrip s
    if strIn plMarker skills && strIn scrumMarker skills then
      .vstr (processSkillsSection skills)
    else
      .vnone

/-- The bullet-cleaning step of `_generate_experience_bullets`
(src/resume_generator/openai_generator.py lines 276-277): strip the response,
split it into lines, keep the lines whose strip is non-empty, and for each
kept line strip it, remove leading bullet glyphs, and strip again. -/
def cleanBullets (s : PyStr) : List PyStr :=
  ((pySplit ('\n' :: []) (pyStrip s)).filter fun b => !(pyStrip b).isEmpty).map
    fun b => pyStrip ((pyStrip b).dropWhile fun c => c = '•' ∨ c = '-' ∨ c = '*')

/-- Model of `OpenAIResumeGenerator._generate_experience_bullets`
(src/resume_generator/openai_generator.py lines 231-284): on success the
cleaned bullet lines are returned; on an exception the entry's original
description is returned. -/
def generateExperienceBullets (e : Experience) (resp : Option PyStr) : List PyStr :=
  match resp with
  | none => e.description
  | some s => cleanBullets s

/-- Model of `OpenAIResumeGenerator.generate_tailored_resume`
(src/resume_generator/openai_generator.py lines 46-64) together with its
effect on the loaded base resume.  The source copies `self.resume_data` with
`dict.copy()`, which is shallow in CPython: the copy shares the `experience`
list and its entry dicts with `self.resume_data`, so the in-place assignment
`tailored_resume["experience"][i]["description"] = ...` also rewrites the
loaded base resume's entries, while the top-level `summary` and `skills` key
assignments affect only the copy.  The first component is the returned
tailored resume; the second component is the post-call state of
`self.resume_data` under these CPython aliasing semantics. -/
def generate_tailored_resume (base : ResumeData) (llm : LLMBehavior) :
    TailoredResume × ResumeData :=
  let tailoredExperience := base.experience.map fun e =>
    { e with description := generateExperienceBullets e (llm.bulletsResp e) }
  (⟨generateSummary base llm.summaryResp,
    generateSkillsSection base llm.skillsResp,
    tailoredExperience⟩,
   { base with experience := tailoredExperience })

/-- Concrete base resume used to exhibit the in-place mutation of C1. -/
def c1Base : ResumeData :=
  { summary := "builder of things".data,
    skills := [("languages".data, ["python".data])],
    experience := [{ company := "acme".data, title := "developer".data,
                     description := ["built the widget pipeline".data],
                     technologies := [] }] }

/-- Language-model oracle used to exhibit the in-place mutation of C1: the
bullet call succeeds with new text, the other calls fail. -/
def c1LLM : LLMBehavior :=
  { summaryResp := none,
    skillsResp := none,
    bulletsResp := fun _ => some "Rewrote the widget pipeline".data }

/-- C1: evaluating `generate_tailored_resume` at a concrete base resume whose
single experience bullet the language model rewrites shows that the loaded
base resume is mutated in place: after the call its experience entry carries
the tailored bullet, not the original one, because `dict.copy()` is shallow
and the experience entries are shared.  This contradicts the claim that every
field of the loaded base resume equals its value before the call. -/
theorem spec_c1 :
    (generate_tailored_resume c1Base c1LLM).2 ≠ c1Base ∧
    (generate_tailored_resume c1Base c1LLM).2.experience.map Experience.description =
      [["Rewrote the widget pipeline".data]] ∧
    c1Base.experience.map Experience.description =
      [["built the widget pipeline".data]] := by
  refine ⟨?_, by decide, by decide⟩
  decide

/-- Model of the skills-fallback check of the second generator variant,
`OpenAIResumeGenerator.generate_tailored_resume` in
src/generators/openai_generator.py lines 114-120: a `None` completion, an
empty completion, or a whitespace-only completion is replaced by the current
skills text. -/
def tailoredSkillsFallback (current : PyStr) (resp : Option PyStr) : PyStr :=
  match resp with
  | none => current
  | some s => if s.isEmpty || (pyStrip s).isEmpty then current else s

/-- Concrete base resume used by the C2 theorems. -/
def c2Base : ResumeData :=
  { summary := "original summary".data,
    skills := [("databases".data, ["sql".data, "postgres".data])],
    experience := [{ company := "acme".data, title := "developer".data,
                     description := ["did a thing".data], technologies := [] }] }

/-- Oracle whose skills call yields an empty completion, used by the C2
counterexample. -/
def c2cexLLM : LLMBehavior :=
  { summaryResp := none, skillsResp := some [], bulletsResp := fun _ => none }

/-- C2 counterexample: an empty skills completion is unusable output, yet the
returned tailored resume's skills field is Python `None` (the skills call
falls off the end of its `try` block), which differs from the original
base-resume skills field (a dict).  So the claim that the corresponding field
then equals the original field exactly is false. -/
theorem spec_c2_cex :
    (generate_tailored_resume c2Base c2cexLLM).1.skills = SkillsVal.vnone ∧
    SkillsVal.vnone ≠ SkillsVal.vdict c2Base.skills := by
  constructor
  · decide
  · decide

/-- C2 (amended): if the language-model call raises for the summary or for one
experience entry's bullets, the corresponding field of the returned tailored
resume equals the corresponding original base-resume field exactly; if the
skills call raises, the skills field is set to the deterministic
`_format_original_skills` rendering of the original skills dict (not to the
dict itself); if the skills response lacks the expected
`Programming Languages`/`Scrum` markers, the skills field is Python `None`;
and each field of the tailored resume depends only on its own step's
response, so no other field is altered by any one step's failure. -/
theorem spec_c2 (base : ResumeData) (llm llm' : LLMBehavior) :
    (llm.summaryResp = none →
      (generate_tailored_resume base llm).1.summary = base.summary) ∧
    (llm.skillsResp = none →
      (generate_tailored_resume base llm).1.skills =
        SkillsVal.vstr (formatOriginalSkills base.skills)) ∧
    (∀ s, llm.skillsResp = some s →
      (strIn plMarker (pyStrip s) && strIn scrumMarker (pyStrip s)) = false →
      (generate_tailored_resume base llm).1.skills = SkillsVal.vnone) ∧
    (∀ (i : Nat) (e : Experience), base.experience[i]? = some e → llm.bulletsResp e = none →
      (generate_tailored_resume base llm).1.experience[i]? = some e) ∧
    (llm.summaryResp = llm'.summaryResp →
      (generate_tailored_resume base llm).1.summary =
        (generate_tailored_resume base llm').1.summary) ∧
    (llm.skillsResp = llm'.skillsResp →
      (generate_tailored_resume base llm).1.skills =
        (generate_tailored_resume base llm').1.skills) ∧
    ((∀ e, llm.bulletsResp e = llm'.bulletsResp e) →
      (generate_tailored_resume base llm).1.experience =
        (generate_tailored_resume base llm').1.experience) := by
  refine ⟨?_, ?_, ?_, ?_, ?_, ?_, ?_⟩
  · intro h
    simp [generate_tailored_resume, generateSummary, h]
  · intro h
    simp [generate_tailored_resume, generateSkillsSection, h]
  · intro s hs hc
    simp [generate_tailored_resume, generateSkillsSection, hs, hc]
  · intro i e hi hb
    simp [generate_tailored_resume, List.getElem?_map, hi, generateExperienceBullets, hb]
  · intro h
    simp [generate_tailored_resume, h]
  · intro h
    simp [generate_tailored_resume, h]
  · intro h
    simp only [generate_tailored_resume]
    exact List.map_congr_left fun e _ => by rw [h e]

/-- Oracle whose calls all raise, used by the C2 witness. -/
def c2wLLM : LLMBehavior :=
  { summaryResp := none, skillsResp := none, bulletsResp := fun _ => none }

/-- C2 witness: the amended theorem applied at the concrete base resume with
an oracle whose calls raise, and at the empty-skills oracle. -/
theorem spec_c2_w :
    (generate_tailored_resume c2Base c2wLLM).1.summary = c2Base.summary ∧
    (generate_tailored_resume c2Base c2wLLM).1.skills =
      SkillsVal.vstr (formatOriginalSkills c2Base.skills) ∧
    (generate_tailored_resume c2Base c2wLLM).1.experience[0]? =
      some { company := "acme".data, title := "developer".data,
             description := ["did a thing".data], technologies := [] } ∧
    (generate_tailored_resume c2Base c2cexLLM).1.skills = SkillsVal.vnone :=
  ⟨(spec_c2 c2Base c2wLLM c2wLLM).1 rfl,
   (spec_c2 c2Base c2wLLM c2wLLM).2.1 rfl,
   (spec_c2 c2Base c2wLLM c2wLLM).2.2.2.1 0 _ (by decide) rfl,
   (spec_c2 c2Base c2cexLLM c2cexLLM).2.2.1 [] rfl (by decide)⟩

/-- Concrete base resume used by the C6 theorems. -/
def c6Base : ResumeData :=
  { summary := "seasoned developer".data,
    skills := [("languages".data, ["python".data])],
    experience := [{ company := "acme".data, title := "developer".data,
                     description := ["did a thing".data], technologies := [] }] }

/-- Oracle whose summary call returns a whitespace-only completion, used by
the C6 counterexample. -/
def c6cexLLM : LLMBehavior :=
  { summaryResp := some "   ".data, skillsResp := none, bulletsResp := fun _ => none }

/-- C6 counterexample: a whitespace-only summary completion is not treated as
a failure by `_generate_summary`; the returned summary field is the empty
string, not the original summary, contradicting the claim. -/
theorem spec_c6_cex :
    (generate_tailored_resume c6Base c6cexLLM).1.summary = [] ∧
    c6Base.summary ≠ [] := by
  constructor
  · decide
  · decide

/-- C6 (amended): only the skills step of the generators-variant generator
(src/generators/openai_generator.py lines 117-120) treats an empty or
whitespace-only completion as a failure, returning the original skills text;
in the resume_generator variant used by the pipeline an empty completion is
not detected: the summary field becomes the empty string, the skills field
becomes Python `None`, and every experience entry's bullets become the empty
list, never the corresponding original content. -/
theorem spec_c6 (current s : PyStr) (base : ResumeData) (llm : LLMBehavior)
    (h : pyStrip s = []) :
    tailoredSkillsFallback current none = current ∧
    tailoredSkillsFallback current (some s) = current ∧
    (llm.summaryResp = some s →
      (generate_tailored_resume base llm).1.summary = []) ∧
    (llm.skillsResp = some s →
      (generate_tailored_resume base llm).1.skills = SkillsVal.vnone) ∧
    ((∀ e, llm.bulletsResp e = some s) →
      (generate_tailored_resume base llm).1.experience =
        base.experience.map fun e => { e with description := [] }) := by
  have hclean : cleanBullets s = [] := by
    unfold cleanBullets
    rw [h]
    rfl
  refine ⟨rfl, ?_, ?_, ?_, ?_⟩
  · simp [tailoredSkillsFallback, h]
  · intro hs
    simp [generate_tailored_resume, generateSummary, hs, h]
  · intro hs
    have hpl : strIn plMarker ([] : PyStr) = false := by decide
    simp [generate_tailored_resume, generateSkillsSection, hs, h, hpl]
  · intro hb
    simp only [generate_tailored_resume]
    exact List.map_congr_left fun e _ => by
      rw [hb e]
      simp [generateExperienceBullets, hclean]

/-- Oracle returning the two-space completion for every call, used by the C6
witness. -/
def c6wLLM : LLMBehavior :=
  { summaryResp := some "  ".data, skillsResp := some "  ".data,
    bulletsResp := fun _ => some "  ".data }

/-- C6 witness: the amended theorem applied at the two-space completion and
the concrete base resume. -/
theorem spec_c6_w :
    tailoredSkillsFallback "Python, SQL".data (some "  ".data) = "Python, SQL".data ∧
    (generate_tailored_resume c6Base c6wLLM).1.summary = [] ∧
    (generate_tailored_resume c6Base c6wLLM).1.skills = SkillsVal.vnone :=
  ⟨(spec_c6 "Python, SQL".data "  ".data c6Base c6wLLM (by decide)).2.1,
   (spec_c6 "Python, SQL".data "  ".data c6Base c6wLLM (by decide)).2.2.1 rfl,
   (spec_c6 "Python, SQL".data "  ".data c6Base c6wLLM (by decide)).2.2.2.1 rfl⟩

/-- A raw job posting as the scrapers and main.py handle it.  The `url` and
`redirect_url` fields are `Option` valued because `job.get(...)` returns
`None` for a missing key. -/
structure Job where
  title : PyStr
  company : PyStr
  location : PyStr
  description : PyStr
  url : Option PyStr
  redirect_url : Option PyStr
deriving DecidableEq

/-- The excluded-keyword test of the filter in `main` (src/main.py lines
454-458): some configured keyword, lowercased, is a substring of the
lowercased title. -/
def excludedInTitle (excluded : List PyStr) (j : Job) : Bool :=
  excluded.any fun t => strIn (pyLower t) (pyLower j.title)

/-- Model of the job filter of `main` (src/main.py lines 453-458): keep
exactly the postings whose title contains no excluded keyword. -/
def filterJobs (excluded : List PyStr) (jobs : List Job) : List Job :=
  jobs.filter fun j => !excludedInTitle excluded j

/-- Python truthiness of an optional string: `None` and the empty string are
falsy. -/
def truthy : Option PyStr → Bool
  | some s => !s.isEmpty
  | none => false

/-- The URL the deduplication of `main` keys on (src/main.py line 446):
`job.get('url') or job.get('redirect_url')`, kept only when truthy. -/
def effUrl (j : Job) : Option PyStr :=
  if truthy j.url then j.url
  else if truthy j.redirect_url then j.redirect_url
  else none

/-- Worker for `dedupJobs`, carrying the `seen_urls` set of src/main.py lines
443-449 as a list. -/
def dedupAux : List PyStr → List Job → List Job
  | _, [] => []
  | seen, j :: rest =>
    match effUrl j with
    | some u => if u ∈ seen then dedupAux seen rest else j :: dedupAux (u :: seen) rest
    | none => dedupAux seen rest

/-- Model of the URL deduplication of `main` (src/main.py lines 442-451). -/
def dedupJobs (jobs : List Job) : List Job := dedupAux [] jobs

/-- The seven positive remote phrases shared by the Adzuna scraper
(src/src/scrapers/adzuna_api.py lines 55-63) and the Reed scraper
(src/src/scrapers/reed_api.py lines 87-95). -/
def remoteIndicators : List PyStr :=
  ["fully remote".data, "100% remote".data, "remote position".data,
   "work from home".data, "work from anywhere".data, "remote work".data,
   "remote opportunity".data]

/-- The negative hybrid/on-site phrases of the Adzuna scraper
(src/src/scrapers/adzuna_api.py lines 66-84). -/
def adzunaExcludeIndicators : List PyStr :=
  ["hybrid".data, "in office".data, "in-office".data, "on site".data,
   "on-site".data, "onsite".data, "must be in".data, "must work in".data,
   "must live in".data, "must be located".data, "must relocate".data,
   "required to work".data, "days per week in".data, "days in office".data,
   "office presence".data, "office attendance".data, "come to the office".data]

/-- The fixed seniority keywords of the Reed scraper
(src/src/scrapers/reed_api.py lines 68-79). -/
def reedExcludeKeywords : List PyStr :=
  ["senior".data, "sr.".data, "sr ".data, "lead".data, "principal".data,
   "staff".data, "manager".data, "director".data, "head of".data, "chief".data]

/-- The remote-eligibility check shared by both scrapers: `remote` occurs in
the lowercased title or location, or the lowercased description contains a
positive remote phrase. -/
def isRemoteCheck (j : Job) : Bool :=
  strIn "remote".data (pyLower j.title) || strIn "remote".data (pyLower j.location) ||
    remoteIndicators.any fun ind => strIn ind (pyLower j.description)

/-- Model of the per-posting filter of `AdzunaScraper.search`
(src/src/scrapers/adzuna_api.py lines 43-98): skip when a configured excluded
keyword occurs in the lowercased title, skip when a negative indicator occurs
in the lowercased description, skip when the posting is not remote; keep
otherwise. -/
def adzunaKeeps (excluded : List PyStr) (j : Job) : Bool :=
  !(excluded.any fun k => strIn (pyLower k) (pyLower j.title)) &&
    !(adzunaExcludeIndicators.any fun ind => strIn ind (pyLower j.description)) &&
    isRemoteCheck j

/-- Model of the per-posting filter of `ReedScraper.search`
(src/src/scrapers/reed_api.py lines 62-105): skip when one of the fixed
seniority keywords occurs in the lowercased title or description, skip when
the posting is not remote; keep otherwise.  There is no negative-phrase
check. -/
def reedKeeps (j : Job) : Bool :=
  !((reedExcludeKeywords.any fun k => strIn k (pyLower j.title)) ||
      (reedExcludeKeywords.any fun k => strIn k (pyLower j.description))) &&
    isRemoteCheck j

/-- Concrete posting whose title is clean but whose description contains the
excluded keyword, used by the C3 counterexample. -/
def c3Job : Job :=
  { title := "Backend Engineer".data, company := "Acme".data,
    location := "Toronto".data,
    description := "We need a senior person for this role".data,
    url := some "https://jobs.example.com/1".data, redirect_url := none }

/-- C3 counterexample: with excluded keyword `senior`, a posting whose
description contains `senior` but whose title does not is retained by the
job filter of `main`, so the claim that the filter drops a posting whenever
its title or its description contains an excluded keyword is false: the
description is never consulted there. -/
theorem spec_c3_cex :
    strIn "senior".data (pyLower c3Job.description) = true ∧
    filterJobs ["senior".data] [c3Job] = [c3Job] := by
  constructor
  · decide
  · decide

/-- C3 (amended): the job filter of `main` consults only the title: a posting
is retained exactly when no excluded keyword is a case-insensitive substring
of its title, regardless of its description; in particular every posting
whose title contains an excluded keyword is dropped.  Separately, the Reed
adapter drops any posting whose title or description contains one of its
fixed seniority keywords. -/
theorem spec_c3 (excluded : List PyStr) (jobs : List Job) (j : Job) :
    (j ∈ filterJobs excluded jobs ↔
      j ∈ jobs ∧ ∀ t ∈ excluded, strIn (pyLower t) (pyLower j.title) = false) ∧
    (∀ t ∈ excluded, strIn (pyLower t) (pyLower j.title) = true →
      j ∉ filterJobs excluded jobs) ∧
    (∀ k ∈ reedExcludeKeywords,
      strIn k (pyLower j.title) = true ∨ strIn k (pyLower j.description) = true →
      reedKeeps j = false) := by
  have hmem : j ∈ filterJobs excluded jobs ↔
      j ∈ jobs ∧ ∀ t ∈ excluded, strIn (pyLower t) (pyLower j.title) = false := by
    simp [filterJobs, List.mem_filter, excludedInTitle, List.any_eq_true]
  refine ⟨hmem, ?_, ?_⟩
  · intro t ht hin hj
    have := (hmem.mp hj).2 t ht
    rw [hin] at this
    exact Bool.true_eq_false.mp this
  · intro k hk hin
    have hor : ((reedExcludeKeywords.any fun k => strIn k (pyLower j.title)) ||
        (reedExcludeKeywords.any fun k => strIn k (pyLower j.description))) = true := by
      rcases hin with hin | hin
      · simp only [Bool.or_eq_true, List.any_eq_true]
        exact Or.inl ⟨k, hk, hin⟩
      · simp only [Bool.or_eq_true, List.any_eq_true]
        exact Or.inr ⟨k, hk, hin⟩
    simp [reedKeeps, hor]

/-- C3 witness: the amended theorem applied at the excluded keyword `senior`
and a posting titled `Senior Developer`, discharging the membership and
containment hypotheses concretely. -/
theorem spec_c3_w :
    ({ title := "Senior Developer".data, company := "Acme".data,
       location := "Toronto".data, description := "role".data,
       url := none, redirect_url := none } : Job) ∉
      filterJobs ["senior".data]
        [{ title := "Senior Developer".data, company := "Acme".data,
           location := "Toronto".data, description := "role".data,
           url := none, redirect_url := none }] ∧
    reedKeeps c3Job = false :=
  ⟨(spec_c3 ["senior".data] _ _).2.1 "senior".data (by decide) (by decide),
   (spec_c3 [] [] c3Job).2.2 "senior".data (by decide) (Or.inr (by decide))⟩

/-- Concrete Reed posting whose description contains both the positive phrase
`remote work` and the negative phrase `must relocate`, used by the C4
counterexample. -/
def c4Job : Job :=
  { title := "Python Developer".data, company := "Acme".data,
    location := "London".data,
    description := "This is remote work but you must relocate to Austin".data,
    url := some "https://jobs.example.com/2".data, redirect_url := none }

/-- C4 counterexample: the Reed adapter's check has no negative phrases at
all, so a posting whose description contains both `remote work` and
`must relocate to Austin` is kept by the Reed filter; the claim that the
negative phrase takes precedence in every source adapter's remote-eligibility
check is false. -/
theorem spec_c4_cex :
    strIn "remote work".data (pyLower c4Job.description) = true ∧
    strIn "must relocate".data (pyLower c4Job.description) = true ∧
    reedKeeps c4Job = true := by
  refine ⟨by decide, by decide, by decide⟩

/-- C4 (amended): in the Adzuna adapter the negative phrases do take
precedence: any posting whose description contains one of the exclude
indicators is dropped, regardless of every other field and of any positive
remote phrase also present; the Reed adapter performs no such check. -/
theorem spec_c4 (excluded : List PyStr) (j : Job) (ind : PyStr)
    (hmem : ind ∈ adzunaExcludeIndicators)
    (hin : strIn ind (pyLower j.description) = true) :
    adzunaKeeps excluded j = false := by
  have hany : (adzunaExcludeIndicators.any fun i => strIn i (pyLower j.description)) = true :=
    List.any_eq_true.mpr ⟨ind, hmem, hin⟩
  simp [adzunaKeeps, hany]

/-- C4 witness: the amended theorem applied at the concrete posting whose
description contains both `remote work` and `must relocate to Austin`: the
Adzuna filter drops it. -/
theorem spec_c4_w : adzunaKeeps [] c4Job = false :=
  spec_c4 [] c4Job "must relocate".data (by decide) (by decide)

/-- Order preservation of deduplication: the result is a sublist of the
input, so the retained postings keep their relative input order. -/
theorem dedupAux_sublist (jobs : List Job) :
    ∀ seen, List.Sublist (dedupAux seen jobs) jobs := by
  induction jobs with
  | nil => intro seen; simp [dedupAux]
  | cons j rest ih =>
    intro seen
    simp only [dedupAux]
    cases h : effUrl j with
    | none => exact List.Sublist.cons _ (ih seen)
    | some u =>
      by_cases hu : u ∈ seen
      · simp only [if_pos hu]
        exact List.Sublist.cons _ (ih seen)
      · simp only [if_neg hu]
        exact List.Sublist.cons₂ _ (ih (u :: seen))

/-- Per-URL characterisation of deduplication: among the postings carrying a
given effective URL, exactly the first one of the input survives, and none
survives when the URL was already seen. -/
theorem dedupAux_filter (u : PyStr) (jobs : List Job) :
    ∀ seen, (dedupAux seen jobs).filter (fun j => decide (effUrl j = some u)) =
      if u ∈ seen then []
      else (jobs.filter (fun j => decide (effUrl j = some u))).take 1 := by
  induction jobs with
  | nil => intro seen; by_cases hu : u ∈ seen <;> simp [dedupAux, hu]
  | cons j rest ih =>
    intro seen
    cases h : effUrl j with
    | none =>
      simp only [dedupAux, h]
      have hj : (decide (effUrl j = some u)) = false := by simp [h]
      by_cases hu : u ∈ seen
      · rw [ih seen, if_pos hu, if_pos hu]
      · rw [List.filter_cons, hj, ih seen, if_neg hu, if_neg hu]
        simp
    | some v =>
      simp only [dedupAux, h]
      by_cases hv : v ∈ seen
      · rw [if_pos hv, ih seen]
        by_cases hu : u ∈ seen
        · rw [if_pos hu, if_pos hu]
        · have hj : (decide (effUrl j = some u)) = false := by
            simp only [h, decide_eq_false_iff_not]
            intro hvu
            exact hu (by injection hvu with hvu; exact hvu ▸ hv)
          rw [if_neg hu, if_neg hu, List.filter_cons, hj]
          simp
      · rw [if_neg hv, List.filter_cons]
        by_cases hvu : v = u
        · subst hvu
          have hu : v ∉ seen := hv
          have hj : (decide (effUrl j = some v)) = true := by simp [h]
          rw [hj, if_neg hu]
          simp only [List.filter_cons, hj]
          rw [ih (v :: seen), if_pos (List.mem_cons_self v seen)]
          simp
        · have hj : (decide (effUrl j = some u)) = false := by
            simp only [h, decide_eq_false_iff_not]
            intro hc
            exact hvu (by injection hc)
          rw [hj, ih (v :: seen)]
          by_cases hu : u ∈ seen
          · rw [if_pos (List.mem_cons_of_mem v hu), if_pos hu]
            simp
          · have : u ∉ v :: seen := by
              intro hc
              rcases List.mem_cons.mp hc with hc | hc
              · exact hvu hc.symm
              · exact hu hc
            rw [if_neg this, if_neg hu, List.filter_cons, hj]
            simp

/-- C7: deduplication keys on the posting URL: the result is a sublist of the
input (so the retained postings keep their input order), and for every URL
the postings of the result carrying that URL are exactly the first posting of
the input carrying it. -/
theorem spec_c7 (jobs : List Job) :
    List.Sublist (dedupJobs jobs) jobs ∧
    ∀ u, (dedupJobs jobs).filter (fun j => decide (effUrl j = some u)) =
      (jobs.filter (fun j => decide (effUrl j = some u))).take 1 := by
  refine ⟨dedupAux_sublist jobs [], fun u => ?_⟩
  have := dedupAux_filter u jobs []
  simpa [dedupJobs] using this

/-- Outcome of the Drive upload attempted inside
`DocxResumeGenerator.create_resume`: success with a file id, a `None` return
from `_upload_to_drive` (its internal `except` caught the API error), or an
exception escaping `_upload_to_drive` that is caught by the handler at
docx_generator.py lines 473-477. -/
inductive UploadOutcome where
  | success (fileId : PyStr)
  | failure
  | raised
deriving DecidableEq

/-- The fixed default skills string of `create_resume`
(docx_generator.py line 455). -/
def defaultSkills : PyStr := "Python, Javascript, HTML, CSS, React, Node.js".data

/-- Python falsiness of a skills value: `None`, a missing key, the empty
string, the empty dict, and the empty list are falsy. -/
def skillsFalsy : SkillsVal → Bool
  | .vstr s => s.isEmpty
  | .vdict d => d.isEmpty
  | .vlist l => l.isEmpty
  | .vnone => true
  | .vmissing => true

/-- The observable result of `DocxResumeGenerator.create_resume`: the
returned local path and the skills blocks rendered into the saved
document. -/
structure CreateResumeResult where
  path : PyStr
  skillsRendered : List SkillBlock
deriving DecidableEq

/-- Model of `DocxResumeGenerator.create_resume` (docx_generator.py lines
450-483) for a run whose document build and local save succeed: falsy skills
are replaced by the fixed default string before rendering, the document is
built by `_create_basic_resume` and saved under `output_path`, and every
upload outcome — success, a `None` return, or a caught exception — still ends
with `return output_path`. -/
def create_resume (sk : SkillsVal) (outputPath : PyStr) (upload : UploadOutcome) :
    CreateResumeResult :=
  let sk := if skillsFalsy sk then .vstr defaultSkills else sk
  let blocks := renderSkillsBlocks sk
  match upload with
  | .success _ => ⟨outputPath, blocks⟩
  | .failure => ⟨outputPath, blocks⟩
  | .raised => ⟨outputPath, blocks⟩

/-- Model of the publish steps of `process_job_application` (src/main.py
lines 320-348): a missing document path raises
`Failed to generate resume document`, a missing Drive URL raises
`Failed to upload resume to Google Drive`, and only on success is the job
updated with the local path and the Drive URL. -/
def processJobPublish (docPath : Option PyStr) (driveUrl : Option PyStr) :
    Except PyStr (PyStr × PyStr) :=
  match docPath with
  | none => .error "Failed to generate resume document".data
  | some p =>
    match driveUrl with
    | none => .error "Failed to upload resume to Google Drive".data
    | some u => .ok (p, u)

/-- C5 counterexample: when the document was generated and saved locally but
the Drive upload returned no URL, `process_job_application` raises instead of
continuing: the job's publish outcome is an error carrying no record of the
local path, contradicting the claim that the upload failure is non-fatal to
that job and that the publish result records the local path with the remote
URL absent. -/
theorem spec_c5_cex :
    processJobPublish (some "generated_resumes/Resume_20250101.docx".data) none =
      Except.error "Failed to upload resume to Google Drive".data := by
  rfl

/-- C5 (amended): inside `create_resume` an upload failure is indeed
non-fatal — for every upload outcome the document is saved and the local path
is returned — but in `process_job_application` a Drive upload that yields no
URL raises `Failed to upload resume to Google Drive`, aborting that job's
processing (the surrounding batch loop catches the exception and continues
with the next job); no publish result records the local path for that job. -/
theorem spec_c5 (sk : SkillsVal) (outputPath : PyStr) (upload : UploadOutcome)
    (p : PyStr) :
    (create_resume sk outputPath upload).path = outputPath ∧
    processJobPublish (some p) none =
      Except.error "Failed to upload resume to Google Drive".data := by
  constructor
  · cases upload <;> simp [create_resume]
  · rfl

/-- C9: for every resume-data record whose skills entry is absent or falsy,
`create_resume` still produces and saves a document under the requested path
and substitutes the fixed default skills string before rendering; the default
contains no colon and no blank-line separator, so the rendered skills section
is the single standalone block carrying the default string — never empty. -/
theorem spec_c9 (sk : SkillsVal) (outputPath : PyStr) (upload : UploadOutcome)
    (h : skillsFalsy sk = true) :
    (create_resume sk outputPath upload).path = outputPath ∧
    (create_resume sk outputPath upload).skillsRendered =
      [SkillBlock.standalone defaultSkills] ∧
    (create_resume sk outputPath upload).skillsRendered ≠ [] := by
  have hblocks : renderSkillsBlocks (.vstr defaultSkills) =
      [SkillBlock.standalone defaultSkills] := by decide
  cases upload <;>
    simp [create_resume, h, hblocks]

/-- C9 witness: the theorem applied to a record whose skills entry is Python
`None`, with a concrete output path and a failed upload. -/
theorem spec_c9_w :
    (create_resume .vnone "generated_resumes/Resume_X.docx".data .failure).path =
      "generated_resumes/Resume_X.docx".data ∧
    (create_resume .vnone "generated_resumes/Resume_X.docx".data .failure).skillsRendered =
      [SkillBlock.standalone defaultSkills] :=
  ⟨(spec_c9 .vnone "generated_resumes/Resume_X.docx".data .failure (by decide)).1,
   (spec_c9 .vnone "generated_resumes/Resume_X.docx".data .failure (by decide)).2.1⟩

/-- First index at which the predicate holds, modelling both Python's
`list.index` (specialised to an equality predicate) and the first-match row
search loop of `update_job`. -/
def findFirstIdx (p : α → Bool) : List α → Option Nat
  | [] => none
  | x :: xs => if p x then some 0 else (findFirstIdx p xs).map (· + 1)

/-- Model of `headers.index(k) if k in headers else -1`
(google_sheets.py line 311), with the absent case as `none`. -/
def pyIndex (k : PyStr) (l : List PyStr) : Option Nat :=
  findFirstIdx (fun y => y = k) l

/-- The header name the job row is keyed on. -/
def jobUrlHeader : PyStr := "Job URL".data

/-- The row-match test of the search loop at google_sheets.py lines 319-322:
`len(row) > url_index and row[url_index] == job_url`. -/
def rowMatches (urlIdx : Nat) (url : PyStr) (row : List PyStr) : Bool :=
  decide (urlIdx < row.length) && decide (row.getD urlIdx [] = url)

/-- The `while len(row_data) <= col_index: row_data.append('')` padding loop
of google_sheets.py lines 336-337. -/
def padRow (r : List PyStr) (n : Nat) : List PyStr :=
  r ++ List.replicate (n - r.length) []

/-- The update loop of google_sheets.py lines 332-338: for each update key
present among the headers, pad the row up to that key's column and write the
value there; keys absent from the headers are ignored. -/
def applyUpdates (headers row : List PyStr) (updates : List (PyStr × PyStr)) :
    List PyStr :=
  updates.foldl
    (fun r kv =>
      match pyIndex kv.1 headers with
      | none => r
      | some ci => (padRow r (ci + 1)).set ci kv.2)
    row

/-- Row lookup in the sheet, with the empty row for an out-of-range index. -/
def nthRow : List (List PyStr) → Nat → List PyStr
  | [], _ => []
  | r :: _, 0 => r
  | _ :: rs, i + 1 => nthRow rs i

/-- Cell lookup in a row, with the empty string for an out-of-range index;
this matches the sheet semantics under which short rows read as empty
cells. -/
def rowCell : List PyStr → Nat → PyStr
  | [], _ => []
  | c :: _, 0 => c
  | _ :: r, j + 1 => rowCell r j

/-- Cell lookup in the whole sheet (row 0 is the header row). -/
def sheetCell (values : List (List PyStr)) (i j : Nat) : PyStr :=
  rowCell (nthRow values i) j

/-- Model of `GoogleSheetsManager.update_job` (google_sheets.py lines
295-351): the sheet state is the `values` matrix returned by the read, the
result is the returned boolean together with the post-write sheet state.  An
empty read, a missing `Job URL` header, or no matching row return `False`
and write nothing; otherwise the first matching row is rewritten through
`applyUpdates` by the `_update_values` range write. -/
def update_job (values : List (List PyStr)) (jobUrl : PyStr)
    (updates : List (PyStr × PyStr)) : Bool × List (List PyStr) :=
  match values with
  | [] => (false, [])
  | headers :: rows =>
    match pyIndex jobUrlHeader headers with
    | none => (false, headers :: rows)
    | some urlIdx =>
      match findFirstIdx (rowMatches urlIdx jobUrl) rows with
      | none => (false, headers :: rows)
      | some ri =>
        (true, headers :: rows.set ri (applyUpdates headers (nthRow rows ri) updates))

/-- Reading a row of empty cells gives empty cells at every index. -/
theorem rowCell_replicate (n j : Nat) :
    rowCell (List.replicate n ([] : PyStr)) j = [] := by
  induction n generalizing j with
  | zero => cases j <;> rfl
  | succ n ih =>
    cases j with
    | zero => rfl
    | succ j => exact ih j

/-- Padding a row with empty strings does not change any cell read. -/
theorem rowCell_padRow (r : List PyStr) (n j : Nat) :
    rowCell (padRow r n) j = rowCell r j := by
  induction r generalizing n j with
  | nil =>
    simp only [padRow, List.nil_append, List.length_nil, Nat.sub_zero]
    exact rowCell_replicate n j
  | cons a r ih =>
    cases j with
    | zero => cases n <;> rfl
    | succ j =>
      show rowCell (a :: (r ++ List.replicate (n - (a :: r).length) [])) (j + 1) = rowCell r j
      have : n - (a :: r).length = (n - 1) - r.length := by
        simp only [List.length_cons]
        omega
      rw [this]
      exact ih (n - 1) j

/-- Cell reads after `List.set`: the written index reads the new value when
it was in range, every other index is unchanged. -/
theorem rowCell_set (r : List PyStr) (i j : Nat) (v : PyStr) :
    rowCell (r.set i v) j = if i = j ∧ i < r.length then v else rowCell r j := by
  induction r generalizing i j with
  | nil => simp [rowCell]
  | cons a r ih =>
    cases i with
    | zero =>
      cases j with
      | zero => simp [rowCell]
      | succ j => simp [rowCell]
    | succ i =>
      cases j with
      | zero => simp [rowCell]
      | succ j =>
        show rowCell (r.set i v) j = _
        rw [ih i j]
        have hiff : (i + 1 = j + 1 ∧ i + 1 < (a :: r).length) ↔ (i = j ∧ i < r.length) := by
          simp only [List.length_cons]
          omega
        by_cases hij : i = j ∧ i < r.length
        · rw [if_pos hij, if_pos (hiff.mpr hij)]
        · rw [if_neg hij, if_neg (fun hc => hij (hiff.mp hc))]
          rfl

/-- The padded row is long enough for the subsequent write. -/
theorem padRow_length (r : List PyStr) (n : Nat) : n ≤ (padRow r n).length := by
  simp only [padRow, List.length_append, List.length_replicate]
  omega

/-- A found index points at an element satisfying the predicate. -/
theorem findFirstIdx_found (p : α → Bool) (l : List α) (i : Nat)
    (h : findFirstIdx p l = some i) : ∃ x, l[i]? = some x ∧ p x = true := by
  induction l generalizing i with
  | nil => simp [findFirstIdx] at h
  | cons a l ih =>
    cases ha : p a with
    | true =>
      rw [findFirstIdx, if_pos ha] at h
      injection h with h
      exact ⟨a, by rw [← h]; simp, ha⟩
    | false =>
      rw [findFirstIdx, if_neg (by simp [ha])] at h
      cases hrec : findFirstIdx p l with
      | none => rw [hrec] at h; exact absurd h (by simp)
      | some i' =>
        rw [hrec] at h
        have h' : i' + 1 = i := by simpa using h
        obtain ⟨x, hx, hpx⟩ := ih i' hrec
        refine ⟨x, ?_, hpx⟩
        rw [← h']
        simpa using hx

/-- Every element before a found index fails the predicate. -/
theorem findFirstIdx_earlier (p : α → Bool) (l : List α) (i : Nat)
    (h : findFirstIdx p l = some i) :
    ∀ k < i, ∀ y, l[k]? = some y → p y = false := by
  induction l generalizing i with
  | nil => simp [findFirstIdx] at h
  | cons a l ih =>
    cases ha : p a with
    | true =>
      rw [findFirstIdx, if_pos ha] at h
      injection h with h
      intro k hk
      exact absurd hk (by omega)
    | false =>
      rw [findFirstIdx, if_neg (by simp [ha])] at h
      cases hrec : findFirstIdx p l with
      | none => rw [hrec] at h; exact absurd h (by simp)
      | some i' =>
        rw [hrec] at h
        have h' : i' + 1 = i := by simpa using h
        intro k hk y hy
        cases k with
        | zero =>
          have hya : y = a := by
            have := hy
            simp only [List.getElem?_cons_zero, Option.some.injEq] at this
            exact this.symm
          rw [hya]
          exact ha
        | succ k =>
          exact ih i' hrec k (by omega) y (by simpa using hy)

/-- A found index is in range. -/
theorem findFirstIdx_lt_length (p : α → Bool) (l : List α) (i : Nat)
    (h : findFirstIdx p l = some i) : i < l.length := by
  obtain ⟨x, hx, _⟩ := findFirstIdx_found p l i h
  exact List.getElem?_eq_some_iff.mp hx |>.1

/-- A found Python `list.index` points at the looked-up element itself. -/
theorem pyIndex_found (k : PyStr) (l : List PyStr) (j : Nat)
    (h : pyIndex k l = some j) : l[j]? = some k := by
  obtain ⟨x, hx, hpx⟩ := findFirstIdx_found _ l j h
  have : x = k := by simpa using hpx
  rw [← this]
  exact hx

/-- Two keys found at the same header index are the same key. -/
theorem pyIndex_inj (k₁ k₂ : PyStr) (l : List PyStr) (j : Nat)
    (h₁ : pyIndex k₁ l = some j) (h₂ : pyIndex k₂ l = some j) : k₁ = k₂ := by
  have e₁ := pyIndex_found k₁ l j h₁
  have e₂ := pyIndex_found k₂ l j h₂
  rw [e₁] at e₂
  exact (Option.some.injEq _ _ ▸ e₂)

/-- Unfolding step of the update loop. -/
theorem applyUpdates_cons (headers row : List PyStr) (kv : PyStr × PyStr)
    (rest : List (PyStr × PyStr)) :
    applyUpdates headers row (kv :: rest) =
      applyUpdates headers
        (match pyIndex kv.1 headers with
         | none => row
         | some ci => (padRow row (ci + 1)).set ci kv.2) rest := rfl

/-- Row rewriting leaves every column untouched whose header no update key
resolves to. -/
theorem applyUpdates_preserve (headers : List PyStr)
    (updates : List (PyStr × PyStr)) (row : List PyStr) (j : Nat)
    (h : ∀ kv ∈ updates, pyIndex kv.1 headers ≠ some j) :
    rowCell (applyUpdates headers row updates) j = rowCell row j := by
  induction updates generalizing row with
  | nil => rfl
  | cons kv rest ih =>
    cases hidx : pyIndex kv.1 headers with
    | none =>
      simp only [applyUpdates_cons, hidx]
      exact ih row fun kv' hkv' => h kv' (List.mem_cons_of_mem kv hkv')
    | some ci =>
      simp only [applyUpdates_cons, hidx]
      rw [ih _ fun kv' hkv' => h kv' (List.mem_cons_of_mem kv hkv'), rowCell_set]
      have hci : ci ≠ j := fun hc => h kv (List.mem_cons_self kv rest) (hc ▸ hidx)
      rw [if_neg (by tauto), rowCell_padRow]

/-- Row rewriting with pairwise-distinct update keys writes each update's
value at its key's header column. -/
theorem applyUpdates_write (headers : List PyStr)
    (updates : List (PyStr × PyStr)) (row : List PyStr)
    (hnodup : (updates.map Prod.fst).Nodup)
    (kv : PyStr × PyStr) (hkv : kv ∈ updates) (j : Nat)
    (hj : pyIndex kv.1 headers = some j) :
    rowCell (applyUpdates headers row updates) j = kv.2 := by
  induction updates generalizing row with
  | nil => simp at hkv
  | cons kv' rest ih =>
    have hnodup' : (rest.map Prod.fst).Nodup := (List.nodup_cons.mp hnodup).2
    have hhead : kv'.1 ∉ rest.map Prod.fst := (List.nodup_cons.mp hnodup).1
    rcases List.mem_cons.mp hkv with heq | hmem
    · subst heq
      simp only [applyUpdates_cons, hj]
      have hrest : ∀ kv₂ ∈ rest, pyIndex kv₂.1 headers ≠ some j := by
        intro kv₂ hkv₂ hc
        exact hhead (pyIndex_inj kv.1 kv₂.1 headers j hj hc ▸
          List.mem_map_of_mem Prod.fst hkv₂)
      rw [applyUpdates_preserve headers rest _ j hrest, rowCell_set]
      have hlen : j < (padRow row (j + 1)).length :=
        Nat.lt_of_lt_of_le (Nat.lt_succ_self j) (padRow_length row (j + 1))
      rw [if_pos ⟨rfl, hlen⟩]
    · cases hidx : pyIndex kv'.1 headers with
      | none =>
        simp only [applyUpdates_cons, hidx]
        exact ih _ hnodup' hmem
      | some ci =>
        simp only [applyUpdates_cons, hidx]
        exact ih _ hnodup' hmem

/-- Reads of unmodified rows are unchanged by `List.set` at another index. -/
theorem nthRow_set_ne (l : List (List PyStr)) (i i' : Nat) (x : List PyStr)
    (h : i ≠ i') : nthRow (l.set i x) i' = nthRow l i' := by
  induction l generalizing i i' with
  | nil => rfl
  | cons a l ih =>
    cases i with
    | zero =>
      cases i' with
      | zero => exact absurd rfl h
      | succ i' => rfl
    | succ i =>
      cases i' with
      | zero => rfl
      | succ i' => exact ih i i' (fun hc => h (by omega))

/-- Reading back the row written by an in-range `List.set`. -/
theorem nthRow_set_eq (l : List (List PyStr)) (i : Nat) (x : List PyStr)
    (h : i < l.length) : nthRow (l.set i x) i = x := by
  induction l generalizing i with
  | nil => simp at h
  | cons a l ih =>
    cases i with
    | zero => rfl
    | succ i => exact ih i (by simpa using h)

/-- A search over rows none of which matches finds nothing. -/
theorem findFirstIdx_eq_none (p : α → Bool) (l : List α)
    (h : ∀ x ∈ l, p x = false) : findFirstIdx p l = none := by
  induction l with
  | nil => rfl
  | cons a l ih =>
    rw [findFirstIdx, if_neg (by simp [h a (List.mem_cons_self a l)]),
      ih fun x hx => h x (List.mem_cons_of_mem a hx)]
    rfl

/-- C10: `update_job` returns `False` and leaves the sheet unchanged when the
read is empty, when there is no `Job URL` header, or when no data row's
`Job URL` cell equals the given URL; when a matching row exists, the result
is `True`, the found row is the first matching one, every other row's cells
are unchanged, the cells of the matched row in columns named by no update key
are unchanged, and with pairwise-distinct update keys each update's value is
written at its key's column of the matched row. -/
theorem spec_c10 (values : List (List PyStr)) (jobUrl : PyStr)
    (updates : List (PyStr × PyStr)) :
    (update_job [] jobUrl updates = (false, [])) ∧
    (∀ headers rows, values = headers :: rows →
      pyIndex jobUrlHeader headers = none →
      update_job values jobUrl updates = (false, values)) ∧
    (∀ headers rows urlIdx, values = headers :: rows →
      pyIndex jobUrlHeader headers = some urlIdx →
      (∀ row ∈ rows, rowMatches urlIdx jobUrl row = false) →
      update_job values jobUrl updates = (false, values)) ∧
    (∀ headers rows urlIdx ri, values = headers :: rows →
      pyIndex jobUrlHeader headers = some urlIdx →
      findFirstIdx (rowMatches urlIdx jobUrl) rows = some ri →
      (update_job values jobUrl updates).1 = true ∧
      (∀ k < ri, ∀ row, rows[k]? = some row → rowMatches urlIdx jobUrl row = false) ∧
      (∀ i j, i ≠ ri + 1 →
        sheetCell (update_job values jobUrl updates).2 i j = sheetCell values i j) ∧
      (∀ j, (∀ kv ∈ updates, pyIndex kv.1 headers ≠ some j) →
        sheetCell (update_job values jobUrl updates).2 (ri + 1) j =
          sheetCell values (ri + 1) j) ∧
      ((updates.map Prod.fst).Nodup →
        ∀ kv ∈ updates, ∀ j, pyIndex kv.1 headers = some j →
          sheetCell (update_job values jobUrl updates).2 (ri + 1) j = kv.2)) := by
  refine ⟨rfl, ?_, ?_, ?_⟩
  · intro headers rows hv hidx
    subst hv
    simp [update_job, hidx]
  · intro headers rows urlIdx hv hidx hnone
    subst hv
    have hfind : findFirstIdx (rowMatches urlIdx jobUrl) rows = none :=
      findFirstIdx_eq_none _ rows hnone
    simp [update_job, hidx, hfind]
  · intro headers rows urlIdx ri hv hidx hfind
    subst hv
    have hresult : update_job (headers :: rows) jobUrl updates =
        (true, headers :: rows.set ri (applyUpdates headers (nthRow rows ri) updates)) := by
      simp [update_job, hidx, hfind]
    have hri : ri < rows.length := findFirstIdx_lt_length _ _ _ hfind
    refine ⟨by rw [hresult], findFirstIdx_earlier _ _ _ hfind, ?_, ?_, ?_⟩
    · intro i j hne
      rw [hresult]
      cases i with
      | zero => rfl
      | succ i =>
        show rowCell (nthRow (rows.set ri _) i) j = rowCell (nthRow rows i) j
        rw [nthRow_set_ne rows ri i _ fun hc => hne (by omega)]
    · intro j hcols
      rw [hresult]
      show rowCell (nthRow (rows.set ri _) ri) j = rowCell (nthRow rows ri) j
      rw [nthRow_set_eq rows ri _ hri]
      exact applyUpdates_preserve headers updates _ j hcols
    · intro hnodup kv hkv j hj
      rw [hresult]
      show rowCell (nthRow (rows.set ri _) ri) j = kv.2
      rw [nthRow_set_eq rows ri _ hri]
      exact applyUpdates_write headers updates _ hnodup kv hkv j hj

/-- Concrete sheet used by the C10 witness: a header row and two data rows. -/
def c10Sheet : List (List PyStr) :=
  [["Job Title".data, "Company".data, "Job URL".data, "Application Status".data],
   ["Dev".data, "Acme".data, "https://jobs.example.com/1".data, "Not Started".data],
   ["Eng".data, "Bcme".data, "https://jobs.example.com/2".data, "Not Started".data]]

/-- Concrete update map used by the C10 witness. -/
def c10Updates : List (PyStr × PyStr) :=
  [("Application Status".data, "Resume Generated".data)]

/-- C10 witness: the theorem applied at a concrete sheet: updating the second
data row by its URL succeeds and writes exactly its status column, leaves the
first data row unchanged, and a lookup of an absent URL returns `False` with
the sheet unchanged. -/
theorem spec_c10_w :
    (update_job c10Sheet "https://jobs.example.com/2".data c10Updates).1 = true ∧
    sheetCell (update_job c10Sheet "https://jobs.example.com/2".data c10Updates).2 2 3 =
      "Resume Generated".data ∧
    sheetCell (update_job c10Sheet "https://jobs.example.com/2".data c10Updates).2 1 3 =
      "Not Started".data ∧
    update_job c10Sheet "https://jobs.example.com/nope".data c10Updates =
      (false, c10Sheet) :=
  ⟨((spec_c10 c10Sheet "https://jobs.example.com/2".data c10Updates).2.2.2
      ["Job Title".data, "Company".data, "Job URL".data, "Application Status".data]
      _ 2 1 rfl (by decide) (by decide)).1,
   ((spec_c10 c10Sheet "https://jobs.example.com/2".data c10Updates).2.2.2
      ["Job Title".data, "Company".data, "Job URL".data, "Application Status".data]
      _ 2 1 rfl (by decide) (by decide)).2.2.2.2 (by decide)
      ("Application Status".data, "Resume Generated".data) (by decide) 3 (by decide),
   ((spec_c10 c10Sheet "https://jobs.example.com/2".data c10Updates).2.2.2
      ["Job Title".data, "Company".data, "Job URL".data, "Application Status".data]
      _ 2 1 rfl (by decide) (by decide)).2.2.1 1 3 (by decide),
   (spec_c10 c10Sheet "https://jobs.example.com/nope".data c10Updates).2.2.1
      ["Job Title".data, "Company".data, "Job URL".data, "Application Status".data]
      _ 2 rfl (by decide) (by decide)⟩

/-- C8: for the tailored skills text `"Languages:\nPython, SQL, JavaScript\n\nGit"`,
the assembled document's skills section renders a `Languages` category block
(bold category line followed by the three comma-joined skills) and a
standalone bold `Git` label with no associated skill list. -/
theorem spec_c8 :
    renderSkillsBlocks (.vstr "Languages:\nPython, SQL, JavaScript\n\nGit".data) =
      [SkillBlock.category "Languages".data "Python, SQL, JavaScript".data,
       SkillBlock.standalone "Git".data] := by
  decide
